import Mathlib

/-!
Verification of the Figurinify desktop utility (src/main.py) against its
natural-language specification.

The development shallowly embeds the three core pieces of the program —
the link Resolver (`resolve_to_glb_url` with its page-scrape helper
`scan_page_for_glb`), the URL normalizer (`_normalize_found_url`) and the
streaming Downloader progress loop (`download_file`) — as executable Lean
functions over `List Char` / `String`, together with the parts of the
Python standard library they rely on (`urllib.parse.urlsplit`, `urlparse`,
`urljoin`, `os.path.basename`, `str.strip`, `str.replace`, the concrete
`re` patterns used by the program, and `html.unescape`).

Modelling conventions:
* Python strings are `List Char` (wrapped in `String` at the interfaces);
  Python's arbitrary-precision integers are `Nat` where the source can
  only produce non-negative values.
* Network I/O is an oracle `fetch : String → FetchOutcome`; a successful
  fetch carries the final (post-redirect) URL and the response text, a
  failed one (non-2xx after `raise_for_status`, timeout, connection
  error) carries the error message.  `resolve_to_glb_url` additionally
  returns the list of URLs it fetched, in order, so that "performs no
  network I/O" is expressible as an empty trace.
* Python exceptions are modelled with `Except` exactly at the points the
  source guards with `try`/`except` (`chr` inside `_u_repl`, the outer
  handler of `_normalize_found_url`).
* Case folding (`str.lower`, `re.IGNORECASE`) is modelled on ASCII, which
  is exact for every pattern the program matches against (all-ASCII).
* Lone-surrogate code points, which Python strings can hold but Lean
  strings cannot, are mapped to U+0000 by `Char.ofNat`; no claim depends
  on them.
-/

namespace Figurinify

/-! ## Basic character and list utilities -/

/-- The set of characters `str.isspace` (and the `re` class `\s` in
Unicode mode) recognises.  Exact on ASCII and on the common Unicode
whitespace code points. -/
def pyIsSpace (c : Char) : Bool :=
  c = ' ' || c = '\t' || c = '\n' || c = '\r' || c = '\x0b' || c = '\x0c' ||
  (0x1c ≤ c.toNat && c.toNat ≤ 0x1f) || c.toNat = 0x85 || c.toNat = 0xa0 ||
  c.toNat = 0x1680 || (0x2000 ≤ c.toNat && c.toNat ≤ 0x200a) ||
  c.toNat = 0x2028 || c.toNat = 0x2029 || c.toNat = 0x202f ||
  c.toNat = 0x205f || c.toNat = 0x3000

/-- `'A'-'Z'` mapped to `'a'-'z'`; models `str.lower` on the ASCII range
(the only range the program's comparisons depend on). -/
def asciiLower (c : Char) : Char :=
  if 'A' ≤ c && c ≤ 'Z' then Char.ofNat (c.toNat + 32) else c

/-- `c in s` for Python strings. -/
def hasChar (c : Char) : List Char → Bool
  | [] => false
  | x :: xs => x == c || hasChar c xs

/-- `s.startswith(p)` on raw character lists. -/
def listStartsWith : List Char → List Char → Bool
  | [], _ => true
  | _ :: _, [] => false
  | p :: ps, c :: cs => p == c && listStartsWith ps cs

/-- Case-insensitive (ASCII) prefix test, for the `re.IGNORECASE`
patterns of the source. -/
def listStartsWithIcase : List Char → List Char → Bool
  | [], _ => true
  | _ :: _, [] => false
  | p :: ps, c :: cs => asciiLower p == asciiLower c && listStartsWithIcase ps cs

/-- `s.endswith(p)`. -/
def listEndsWith (p l : List Char) : Bool :=
  listStartsWith p.reverse l.reverse

/-- Index of the first occurrence of a character (`str.find`). -/
def idxOf (c : Char) : List Char → Option Nat
  | [] => none
  | x :: xs => if x == c then some 0 else (idxOf c xs).map (· + 1)

/-- `str.find(c, start)`. -/
def idxFrom (c : Char) (l : List Char) (start : Nat) : Option Nat :=
  (idxOf c (l.drop start)).map (· + start)

/-- `str.rfind(c)`. -/
def rIdxOf (c : Char) (l : List Char) : Option Nat :=
  (idxOf c l.reverse).map (fun j => l.length - 1 - j)

/-- `str.split(sep, 1)` when the separator occurs, else `(s, "")`. -/
def splitAtFirst (sep : Char) (l : List Char) : List Char × List Char :=
  match idxOf sep l with
  | some i => (l.take i, l.drop (i + 1))
  | none => (l, [])

/-- `str.split(sep)` (single-character separator). -/
def splitOnChar (sep : Char) : List Char → List (List Char)
  | [] => [[]]
  | c :: cs =>
    let r := splitOnChar sep cs
    if c = sep then [] :: r
    else
      match r with
      | [] => [[c]]
      | g :: gs => (c :: g) :: gs

/-- `'/'.join(parts)`. -/
def joinWithSlash : List (List Char) → List Char
  | [] => []
  | [g] => g
  | g :: gs => g ++ '/' :: joinWithSlash gs

/-- Left trim of whitespace (`str.lstrip()`). -/
def ltrim (l : List Char) : List Char := l.dropWhile pyIsSpace

/-- Right trim of whitespace (`str.rstrip()`), structurally recursive. -/
def rtrim : List Char → List Char
  | [] => []
  | c :: cs =>
    match rtrim cs with
    | [] => if pyIsSpace c then [] else [c]
    | r => c :: r

/-- `str.strip()`. -/
def pyStrip (l : List Char) : List Char := rtrim (ltrim l)

/-- `str.strip()` at the `String` interface. -/
def pyStripS (s : String) : String := ⟨pyStrip s.data⟩

/-- One pass of Python's `str.replace(pat, rep)`: left-to-right,
non-overlapping.  `fuel` bounds the recursion; `l.length` is always
enough fuel since every step consumes at least one character. -/
def replaceAux (pat rep : List Char) : Nat → List Char → List Char
  | 0, l => l
  | _ + 1, [] => []
  | fuel + 1, c :: cs =>
    if listStartsWith pat (c :: cs) then
      rep ++ replaceAux pat rep fuel ((c :: cs).drop pat.length)
    else
      c :: replaceAux pat rep fuel cs

/-- `str.replace(pat, rep)` for a non-empty pattern. -/
def pyReplace (pat rep l : List Char) : List Char :=
  replaceAux pat rep l.length l

/-- Hexadecimal digit test for the explicit class `[0-9a-fA-F]`. -/
def isHexChar (c : Char) : Bool :=
  ('0' ≤ c && c ≤ '9') || ('a' ≤ c && c ≤ 'f') || ('A' ≤ c && c ≤ 'F')

/-- Decimal digit test (`[0-9]`). -/
def isDigitChar (c : Char) : Bool := '0' ≤ c && c ≤ '9'

def hexDigitVal (c : Char) : Nat :=
  if '0' ≤ c && c ≤ '9' then c.toNat - 48
  else if 'a' ≤ c && c ≤ 'f' then c.toNat - 87
  else if 'A' ≤ c && c ≤ 'F' then c.toNat - 55
  else 0

/-- `int(s, 16)` for a list of hex digits. -/
def hexVal (l : List Char) : Nat := l.foldl (fun a c => a * 16 + hexDigitVal c) 0

/-- `int(s)` for a list of decimal digits. -/
def decVal (l : List Char) : Nat := l.foldl (fun a c => a * 10 + (c.toNat - 48)) 0

/-! ## `urllib.parse`

Model of the CPython (3.11+) implementations of `urlsplit`, `urlparse`,
`urljoin`, `urlunsplit` and `urlunparse`, restricted to the features the
program exercises.  The one omission: the extra validation of a
bracketed (IPv6) host inside the netloc raises in CPython; here only the
bracket-mismatch check is modelled (used by `_is_url`, whose
`try`/`except` turns the exception into `False`); no claim involves IPv6
hosts. -/

/-- The result of `urlsplit`. -/
structure UrlSplitResult where
  scheme : List Char
  netloc : List Char
  path : List Char
  query : List Char
  fragment : List Char
deriving DecidableEq

/-- The result of `urlparse` (adds the `params` component). -/
structure UrlParseResult where
  scheme : List Char
  netloc : List Char
  path : List Char
  params : List Char
  query : List Char
  fragment : List Char
deriving DecidableEq

/-- Characters allowed in a URL scheme (`scheme_chars`). -/
def isSchemeChar (c : Char) : Bool :=
  ('a' ≤ c && c ≤ 'z') || ('A' ≤ c && c ≤ 'Z') || ('0' ≤ c && c ≤ '9') ||
  c = '+' || c = '-' || c = '.'

def isAsciiAlpha (c : Char) : Bool :=
  ('a' ≤ c && c ≤ 'z') || ('A' ≤ c && c ≤ 'Z')

/-- `urllib.parse.urlsplit(url, defaultScheme)` with `allow_fragments=True`:
strips leading C0-control-or-space characters, removes tab/CR/LF
everywhere, detects the scheme at the first `:`, splits the netloc after
`//` up to the first of `/?#`, then splits off fragment and query. -/
def pyUrlsplit (url0 defaultScheme : List Char) : UrlSplitResult :=
  let url1 := url0.dropWhile (fun c => c.toNat ≤ 0x20)
  let url := url1.filter (fun c => c ≠ '\t' && c ≠ '\r' && c ≠ '\n')
  let schemeRest : List Char × List Char :=
    match idxOf ':' url with
    | some i =>
      if 0 < i && (match url with | c0 :: _ => isAsciiAlpha c0 | [] => false)
          && (url.take i).all isSchemeChar then
        ((url.take i).map asciiLower, url.drop (i + 1))
      else (defaultScheme, url)
    | none => (defaultScheme, url)
  let netlocRest : List Char × List Char :=
    if listStartsWith ['/', '/'] schemeRest.2 then
      let nl := (schemeRest.2.drop 2).takeWhile (fun c => c ≠ '/' && c ≠ '?' && c ≠ '#')
      (nl, schemeRest.2.drop (2 + nl.length))
    else ([], schemeRest.2)
  let fragSplit := splitAtFirst '#' netlocRest.2
  let querySplit := splitAtFirst '?' fragSplit.1
  ⟨schemeRest.1, netlocRest.1, querySplit.1, querySplit.2, fragSplit.2⟩

/-- The bracket-mismatch condition on a netloc under which `urlsplit`
raises `ValueError` ("Invalid IPv6 URL"). -/
def bracketMismatch (nl : List Char) : Bool :=
  (hasChar '[' nl && !hasChar ']' nl) || (hasChar ']' nl && !hasChar '[' nl)

/-- `urllib.parse.uses_relative`. -/
def uses_relative : List String :=
  ["", "ftp", "http", "gopher", "nntp", "imap", "wais", "file", "https",
   "shttp", "mms", "prospero", "rtsp", "rtspu", "sftp", "svn", "svn+ssh",
   "ws", "wss"]

/-- `urllib.parse.uses_netloc`. -/
def uses_netloc : List String :=
  ["", "ftp", "http", "gopher", "nntp", "telnet", "imap", "wais", "file",
   "mms", "https", "shttp", "snews", "prospero", "rtsp", "rtspu", "rsync",
   "svn", "svn+ssh", "sftp", "nfs", "git", "git+ssh", "ws", "wss"]

/-- `urllib.parse.uses_params`. -/
def uses_params : List String :=
  ["", "ftp", "hdl", "prospero", "http", "imap", "https", "shttp", "rtsp",
   "rtspu", "sip", "sips", "mms", "sftp", "tel"]

/-- Membership of a scheme in one of the lists above. -/
def schemeIn (s : List Char) (xs : List String) : Bool :=
  xs.any (fun x => x.data == s)

/-- `urllib.parse._splitparams`: split `;params` off the last path
segment.  Only called when the path contains a `;`. -/
def pySplitparams (url : List Char) : List Char × List Char :=
  if hasChar '/' url then
    match rIdxOf '/' url with
    | some j =>
      match idxFrom ';' url j with
      | some i => (url.take i, url.drop (i + 1))
      | none => (url, [])
    | none => (url, [])
  else
    match idxOf ';' url with
    | some i => (url.take i, url.drop (i + 1))
    | none => (url, [])

/-- `urllib.parse.urlparse(url, defaultScheme)`. -/
def pyUrlparse (url defaultScheme : List Char) : UrlParseResult :=
  let sr := pyUrlsplit url defaultScheme
  if schemeIn sr.scheme uses_params && hasChar ';' sr.path then
    let pp := pySplitparams sr.path
    ⟨sr.scheme, sr.netloc, pp.1, pp.2, sr.query, sr.fragment⟩
  else
    ⟨sr.scheme, sr.netloc, sr.path, [], sr.query, sr.fragment⟩

/-- `urllib.parse.urlunsplit`. -/
def pyUrlunsplit (scheme netloc path query fragment : List Char) : List Char :=
  let url1 :=
    if !netloc.isEmpty || (!path.isEmpty && listStartsWith ['/', '/'] path) then
      let p := if !path.isEmpty && !listStartsWith ['/'] path then '/' :: path else path
      '/' :: '/' :: (netloc ++ p)
    else path
  let url2 := if !scheme.isEmpty then scheme ++ ':' :: url1 else url1
  let url3 := if !query.isEmpty then url2 ++ '?' :: query else url2
  if !fragment.isEmpty then url3 ++ '#' :: fragment else url3

/-- `urllib.parse.urlunparse`. -/
def pyUrlunparse (u : UrlParseResult) : List Char :=
  let url := if !u.params.isEmpty then u.path ++ ';' :: u.params else u.path
  pyUrlunsplit u.scheme u.netloc url u.query u.fragment

/-- `segments[1:-1] = filter(None, segments[1:-1])` from `urljoin`:
drop empty segments, keeping the first and last. -/
def filterMiddle (l : List (List Char)) : List (List Char) :=
  match l with
  | [] => []
  | [a] => [a]
  | a :: rest => a :: (rest.dropLast.filter (fun g => !g.isEmpty) ++ [rest.getLastD []])

/-- The segment-resolution loop of `urljoin` (handling `.` and `..`). -/
def resolveSegments (segments : List (List Char)) : List (List Char) :=
  let dot : List Char := ['.']
  let dotdot : List Char := ['.', '.']
  let resolved := segments.foldl
    (fun acc seg =>
      if seg = dotdot then acc.dropLast
      else if seg = dot then acc
      else acc ++ [seg]) []
  if segments.getLastD [] = dot || segments.getLastD [] = dotdot then
    resolved ++ [[]]
  else resolved

/-- `urllib.parse.urljoin(base, url)`, following CPython. -/
def pyUrljoin (base url : String) : String :=
  if base = "" then url
  else if url = "" then base
  else
    let b := pyUrlparse base.data []
    let u := pyUrlparse url.data b.scheme
    if u.scheme ≠ b.scheme || !schemeIn u.scheme uses_relative then url
    else if schemeIn u.scheme uses_netloc && !u.netloc.isEmpty then
      ⟨pyUrlunparse u⟩
    else
      let netloc := if schemeIn u.scheme uses_netloc then b.netloc else u.netloc
      if u.path.isEmpty && u.params.isEmpty then
        let query := if u.query.isEmpty then b.query else u.query
        ⟨pyUrlunparse ⟨u.scheme, netloc, b.path, b.params, query, u.fragment⟩⟩
      else
        let baseParts0 := splitOnChar '/' b.path
        let baseParts :=
          if !(baseParts0.getLastD []).isEmpty then baseParts0.dropLast else baseParts0
        let segments :=
          if listStartsWith ['/'] u.path then splitOnChar '/' u.path
          else filterMiddle (baseParts ++ splitOnChar '/' u.path)
        let joined := joinWithSlash (resolveSegments segments)
        let path := if joined.isEmpty then ['/'] else joined
        ⟨pyUrlunparse ⟨u.scheme, netloc, path, u.params, u.query, u.fragment⟩⟩

/-- POSIX `os.path.basename`: everything after the last `/`. -/
def pyBasename (p : List Char) : List Char :=
  (splitOnChar '/' p).getLastD []

/-! ## `html.unescape`

Model of CPython's `html.unescape`: numeric character references are
handled in full (including the `_invalid_charrefs` remapping and the
`_invalid_codepoints` suppression); the named-entity table is restricted
to the common entities relevant to URLs — the full HTML5 table is much
larger, but no behaviour the claims exercise depends on the extra
names. -/

/-- The double quote character, `"`. -/
def dq : Char := Char.ofNat 34

/-- The single quote character, `'`. -/
def sq : Char := Char.ofNat 39

/-- Characters admitted inside a named character reference:
the class `[^\t\n\f <&#;]`. -/
def charrefNameChar (c : Char) : Bool :=
  c ≠ '\t' && c ≠ '\n' && c ≠ '\x0c' && c ≠ ' ' && c ≠ '<' && c ≠ '&' &&
  c ≠ '#' && c ≠ ';'

/-- `html._invalid_charrefs`: Windows-1252 style remapping of some
numeric references. -/
def invalidCharref (n : Nat) : Option (List Char) :=
  if n = 0x00 then some ['�']
  else if n = 0x0d then some ['\r']
  else if n = 0x80 then some ['€']
  else if n = 0x81 then some ['\x81']
  else if n = 0x82 then some ['‚']
  else if n = 0x83 then some ['ƒ']
  else if n = 0x84 then some ['„']
  else if n = 0x85 then some ['…']
  else if n = 0x86 then some ['†']
  else if n = 0x87 then some ['‡']
  else if n = 0x88 then some ['ˆ']
  else if n = 0x89 then some ['‰']
  else if n = 0x8a then some ['Š']
  else if n = 0x8b then some ['‹']
  else if n = 0x8c then some ['Œ']
  else if n = 0x8d then some ['\x8d']
  else if n = 0x8e then some ['Ž']
  else if n = 0x8f then some ['\x8f']
  else if n = 0x90 then some ['\x90']
  else if n = 0x91 then some ['‘']
  else if n = 0x92 then some ['’']
  else if n = 0x93 then some ['“']
  else if n = 0x94 then some ['”']
  else if n = 0x95 then some ['•']
  else if n = 0x96 then some ['–']
  else if n = 0x97 then some ['—']
  else if n = 0x98 then some ['˜']
  else if n = 0x99 then some ['™']
  else if n = 0x9a then some ['š']
  else if n = 0x9b then some ['›']
  else if n = 0x9c then some ['œ']
  else if n = 0x9d then some ['\x9d']
  else if n = 0x9e then some ['ž']
  else if n = 0x9f then some ['Ÿ']
  else none

/-- `html._invalid_codepoints` (references decoded to the empty string). -/
def invalidCodepoint (n : Nat) : Bool :=
  (1 ≤ n && n ≤ 8) || (0xe ≤ n && n ≤ 0x1f) || (0x7f ≤ n && n ≤ 0x9f) ||
  (0xfdd0 ≤ n && n ≤ 0xfdef) ||
  (n % 0x10000 = 0xfffe) || (n % 0x10000 = 0xffff)

/-- Replacement text for a numeric character reference with value `n`.
Surrogate code points yield U+FFFD as in CPython. -/
def numericCharrefRepl (n : Nat) : List Char :=
  match invalidCharref n with
  | some r => r
  | none =>
    if (0xD800 ≤ n && n ≤ 0xDFFF) || 0x10FFFF < n then ['�']
    else if invalidCodepoint n then []
    else [Char.ofNat n]

/-- Named-entity lookup: a faithful subset of `html.entities.html5`. -/
def html5Lookup (s : List Char) : Option (List Char) :=
  if s = ['a', 'm', 'p', ';'] then some ['&']
  else if s = ['a', 'm', 'p'] then some ['&']
  else if s = ['l', 't', ';'] then some ['<']
  else if s = ['l', 't'] then some ['<']
  else if s = ['g', 't', ';'] then some ['>']
  else if s = ['g', 't'] then some ['>']
  else if s = ['q', 'u', 'o', 't', ';'] then some [dq]
  else if s = ['q', 'u', 'o', 't'] then some [dq]
  else if s = ['a', 'p', 'o', 's', ';'] then some [sq]
  else if s = ['n', 'b', 's', 'p', ';'] then some ['\xa0']
  else if s = ['n', 'b', 's', 'p'] then some ['\xa0']
  else none

/-- The longest-known-name fallback of `_replace_charref` for named
references: try prefixes of length `x`, `x-1`, ..., `2`. -/
def namedFallback (s : List Char) : Nat → List Char
  | 0 => '&' :: s
  | 1 => '&' :: s
  | x + 1 =>
    match html5Lookup (s.take (x + 1)) with
    | some r => r ++ s.drop (x + 1)
    | none => namedFallback s x

/-- Replacement for a matched named reference group `s`. -/
def namedCharrefRepl (s : List Char) : List Char :=
  match html5Lookup s with
  | some r => r
  | none => namedFallback s (s.length - 1)

/-- Try to match a character reference right after a `&`; on success
return the replacement text and the rest of the input.  Mirrors the
pattern `&(#[0-9]+;?|#[xX][0-9a-fA-F]+;?|[^\t\n\f <&#;]{1,32};?)`. -/
def charrefMatch (rest : List Char) : Option (List Char × List Char) :=
  match rest with
  | '#' :: after =>
    (match after with
     | x :: hs =>
       if x = 'x' || x = 'X' then
         let hx := hs.takeWhile isHexChar
         if hx.isEmpty then none
         else
           let tail := hs.drop hx.length
           match tail with
           | ';' :: t2 => some (numericCharrefRepl (hexVal hx), t2)
           | _ => some (numericCharrefRepl (hexVal hx), tail)
       else
         let ds := after.takeWhile isDigitChar
         if ds.isEmpty then none
         else
           let tail := after.drop ds.length
           match tail with
           | ';' :: t2 => some (numericCharrefRepl (decVal ds), t2)
           | _ => some (numericCharrefRepl (decVal ds), tail)
     | [] => none)
  | _ =>
    let run := (rest.takeWhile charrefNameChar).take 32
    if run.isEmpty then none
    else
      match rest.drop run.length with
      | ';' :: t2 => some (namedCharrefRepl (run ++ [';']), t2)
      | tail => some (namedCharrefRepl run, tail)

/-- The substitution pass of `html.unescape` (fuelled; each step consumes
at least one character). -/
def charrefSub : Nat → List Char → List Char
  | 0, l => l
  | _ + 1, [] => []
  | fuel + 1, c :: cs =>
    if c = '&' then
      match charrefMatch cs with
      | some (rep, rest) => rep ++ charrefSub fuel rest
      | none => '&' :: charrefSub fuel cs
    else c :: charrefSub fuel cs

/-- `html.unescape(s)`: returns `s` unchanged when it contains no `&`. -/
def htmlUnescape (l : List Char) : List Char :=
  if hasChar '&' l then charrefSub l.length l else l

/-! ## The URL normalizer `_normalize_found_url` (src/main.py lines 83-118)

The pipeline: strip whitespace; drop a single trailing unescaped
backslash; unescape `\/` and `\"`; collapse doubled backslashes; decode
double-escaped `\\uXXXX`; decode single-escaped `\uXXXX`; HTML-unescape;
strip again.  Python's exceptions are modelled with `Except`: `chr` is
the one fallible primitive (`ValueError` above 0x10FFFF), `_u_repl`
guards it with its own `try`/`except` returning the matched text, and
the whole body is wrapped in the outer handler that falls back to the
raw input. -/

/-- `chr(n)`: errors above 0x10FFFF.  (Python produces lone-surrogate
strings for 0xD800-0xDFFF; Lean cannot, and `Char.ofNat` maps those to
U+0000 — no claim depends on surrogate escapes.) -/
def pyChrE (n : Nat) : Except Unit Char :=
  if n ≤ 0x10FFFF then .ok (Char.ofNat n) else .error ()

/-- `_u_repl`: decode a 4-hex-digit escape; its inner `try`/`except`
returns the whole matched text on failure. -/
def uReplE (whole hex : List Char) : Except Unit (List Char) :=
  match pyChrE (hexVal hex) with
  | .ok c => .ok [c]
  | .error _ => .ok whole

/-- Match `\\uXXXX` (`dbl = true`) or `\uXXXX` (`dbl = false`) at the
head of the input: returns the hex digits, the whole match, and the
rest. -/
def matchUEscape (dbl : Bool) (l : List Char) : Option (List Char × List Char × List Char) :=
  let pat : List Char := if dbl then ['\\', '\\', 'u'] else ['\\', 'u']
  if listStartsWith pat l then
    let after := l.drop pat.length
    let hex := after.take 4
    if hex.length = 4 && hex.all isHexChar then
      some (hex, pat ++ hex, after.drop 4)
    else none
  else none

/-- One `re.sub` pass for the unicode-escape patterns, fuelled (each
step consumes at least one character, so `l.length` fuel suffices). -/
def subUAuxE (dbl : Bool) : Nat → List Char → Except Unit (List Char)
  | 0, l => .ok l
  | _ + 1, [] => .ok []
  | fuel + 1, c :: cs =>
    match matchUEscape dbl (c :: cs) with
    | some (hex, whole, rest) =>
      match uReplE whole hex with
      | .ok piece =>
        match subUAuxE dbl fuel rest with
        | .ok tail => .ok (piece ++ tail)
        | .error e => .error e
      | .error e => .error e
    | none =>
      match subUAuxE dbl fuel cs with
      | .ok tail => .ok (c :: tail)
      | .error e => .error e

/-- The pure value of the unicode-escape substitution (used to state the
pipeline shape; equal to the `Except` version by `subUAuxE_ok`). -/
def subUPure (dbl : Bool) (l : List Char) : List Char :=
  match subUAuxE dbl l.length l with
  | .ok r => r
  | .error _ => l

/-- The pattern `\` (one backslash). -/
def patBS : List Char := ['\\']

/-- The pattern `\\` (two backslashes). -/
def patBS2 : List Char := ['\\', '\\']

/-- The pattern `\/`. -/
def patEscSlash : List Char := ['\\', '/']

/-- The pattern `\"`. -/
def patEscQuote : List Char := ['\\', dq]

/-- Strip one trailing backslash when it is not doubled:
`if s.endswith("\\") and not s.endswith("\\\\"): s = s[:-1]`. -/
def stripTrailBS (l : List Char) : List Char :=
  if listEndsWith patBS l && !listEndsWith patBS2 l then l.dropLast else l

/-- The pure stages of the normalizer up to (and including) the doubled
backslash collapse, applied to an already whitespace-stripped string. -/
def normReplaceStages (l : List Char) : List Char :=
  pyReplace patBS2 patBS
    (pyReplace patEscQuote [dq]
      (pyReplace patEscSlash ['/'] (stripTrailBS l)))

/-- The body of `_normalize_found_url` inside its outer `try`, as an
`Except` computation. -/
def normBodyE (raw : List Char) : Except Unit (List Char) :=
  match subUAuxE true (normReplaceStages (pyStrip raw)).length (normReplaceStages (pyStrip raw)) with
  | .error e => .error e
  | .ok s5 =>
    match subUAuxE false s5.length s5 with
    | .error e => .error e
    | .ok s6 => .ok (pyStrip (htmlUnescape s6))

/-- `_normalize_found_url(raw)`: the body, with the outer `except`
falling back to the raw input. -/
def _normalize_found_url (raw : String) : String :=
  match normBodyE raw.data with
  | .ok s => ⟨s⟩
  | .error _ => raw

/-! ## The three scrape patterns of `scan_page_for_glb`

Each is a direct operational model of the `re.findall` call in the
source, with Python's leftmost-first scan, lazy `+?` bodies, greedy
optional query groups, and `re.IGNORECASE` (ASCII-exact: the patterns
are all-ASCII). -/

/-- A character admitted by the class `[^\s\"']`. -/
def bodyChar (c : Char) : Bool :=
  !pyIsSpace c && c ≠ dq && c ≠ sq

/-- `.glb` (matched case-insensitively) begins here. -/
def isGlbHere (l : List Char) : Bool :=
  listStartsWithIcase ['.', 'g', 'l', 'b'] l

/-- Lazy body of `[^\s\"']+?\.glb(?:\?[^\s\"']+)?`: consume at least one
body character, stop at the first `.glb`, then greedily take an optional
`?query` of body characters.  Returns the matched text (original
case). -/
def lazyGlbBody : List Char → List Char → Option (List Char)
  | [], _ => none
  | c :: cs, acc =>
    if bodyChar c then
      if isGlbHere cs then
        let q : List Char :=
          match cs.drop 4 with
          | q1 :: qs =>
            if q1 = '?' then
              let run := qs.takeWhile bodyChar
              if run.isEmpty then [] else '?' :: run
            else []
          | [] => []
        some ((c :: acc).reverse ++ cs.take 4 ++ q)
      else lazyGlbBody cs (c :: acc)
    else none

/-- `https://` (case-insensitive). -/
def pHttpsSS : List Char := ['h', 't', 't', 'p', 's', ':', '/', '/']

/-- `http://` (case-insensitive). -/
def pHttpSS : List Char := ['h', 't', 't', 'p', ':', '/', '/']

/-- Try the absolute pattern
`https?://[^\s\"']+?\.glb(?:\?[^\s\"']+)?` at this position. -/
def matchAbsAt (l : List Char) : Option (List Char) :=
  if listStartsWithIcase pHttpsSS l then
    (lazyGlbBody (l.drop 8) []).map (fun m => l.take 8 ++ m)
  else if listStartsWithIcase pHttpSS l then
    (lazyGlbBody (l.drop 7) []).map (fun m => l.take 7 ++ m)
  else none

/-- First (leftmost) match of the absolute pattern; `candidates[0]` of
the source's first `re.findall`. -/
def findFirstAbs : List Char → Option (List Char)
  | [] => none
  | c :: cs =>
    match matchAbsAt (c :: cs) with
    | some m => some m
    | none => findFirstAbs cs

/-- Try the root-relative pattern
`(/[^\s\"']+?\.glb(?:\?[^\s\"']+)?)` at this position. -/
def matchRelAt (l : List Char) : Option (List Char) :=
  match l with
  | '/' :: cs => (lazyGlbBody cs []).map (fun m => '/' :: m)
  | _ => none

/-- First match of the root-relative pattern; `rel[0]` in the source. -/
def findFirstRootRel : List Char → Option (List Char)
  | [] => none
  | c :: cs =>
    match matchRelAt (c :: cs) with
    | some m => some m
    | none => findFirstRootRel cs

/-- A character admitted by the class `[^\"']`. -/
def nonQuote (c : Char) : Bool := c ≠ dq && c ≠ sq

def isQuote (c : Char) : Bool := c = dq || c = sq

/-- After `.glb` inside an attribute value: the greedy optional
`(?:\?[^\"']+)?` followed by the closing `[\"']`.  Returns the query
part when a closing quote makes the whole match succeed. -/
def attrComplete (cs : List Char) : Option (List Char) :=
  match cs with
  | [] => none
  | c :: rest =>
    if c = '?' then
      let run := rest.takeWhile nonQuote
      if run.isEmpty then none
      else
        match rest.drop run.length with
        | q :: _ => if isQuote q then some ('?' :: run) else none
        | [] => none
    else if isQuote c then some []
    else none

/-- Lazy capture body of
`([^\"']+?\.glb(?:\?[^\"']+)?)[\"']`: extend one character at a time,
trying `.glb` plus a successful completion at each position. -/
def attrValue : List Char → List Char → Option (List Char)
  | [], _ => none
  | c :: cs, acc =>
    if nonQuote c then
      match (if isGlbHere cs then attrComplete (cs.drop 4) else none) with
      | some q => some ((c :: acc).reverse ++ cs.take 4 ++ q)
      | none => attrValue cs (c :: acc)
    else none

/-- `href=` (case-insensitive). -/
def pHrefEq : List Char := ['h', 'r', 'e', 'f', '=']

/-- `src=` (case-insensitive). -/
def pSrcEq : List Char := ['s', 'r', 'c', '=']

/-- Try the attribute pattern
`(?:href|src)=[\"'](?!https?://)([^\"']+?\.glb(?:\?[^\"']+)?)[\"']`
at this position; returns the captured group. -/
def matchAttrAt (l : List Char) : Option (List Char) :=
  let afterKey : Option (List Char) :=
    if listStartsWithIcase pHrefEq l then some (l.drop 5)
    else if listStartsWithIcase pSrcEq l then some (l.drop 4)
    else none
  match afterKey with
  | none => none
  | some rest =>
    match rest with
    | q :: rest2 =>
      if isQuote q then
        if listStartsWithIcase pHttpSS rest2 || listStartsWithIcase pHttpsSS rest2 then
          none
        else attrValue rest2 []
      else none
    | [] => none

/-- First match of the attribute pattern; `rel2[0]` in the source. -/
def findFirstAttrRel : List Char → Option (List Char)
  | [] => none
  | c :: cs =>
    match matchAttrAt (c :: cs) with
    | some m => some m
    | none => findFirstAttrRel cs

/-! ## The Resolver (src/main.py lines 28-175) -/

/-- The `Resolved` dataclass. -/
structure Resolved where
  glb_url : String
  filename : String
deriving DecidableEq

/-- Outcome of one `requests.get` (page fetch): a success carries the
final post-redirect URL (`r.url`) and the response text (`r.text`); an
error covers transport failures and the `raise_for_status` of a non-2xx
response. -/
inductive FetchOutcome where
  | ok (finalUrl : String) (body : String)
  | err (msg : String)
deriving DecidableEq

/-- Errors `resolve_to_glb_url` can terminate with: a propagated fetch
error, or the final `ValueError` ("ResolutionError") with its guidance
message. -/
inductive ResolveError where
  | fetchError (msg : String)
  | resolutionError (msg : String)
deriving DecidableEq

/-- `_is_url(s)`: `urlparse` succeeds, the scheme is http or https, and
the netloc is non-empty; the `except` arm maps the bracket-mismatch
`ValueError` to `False`. -/
def _is_url (s : String) : Bool :=
  let u := pyUrlsplit s.data []
  if bracketMismatch u.netloc then false
  else
    (u.scheme == ['h', 't', 't', 'p'] || u.scheme == ['h', 't', 't', 'p', 's'])
      && !u.netloc.isEmpty

/-- The extension `.glb`. -/
def glbExt : List Char := ['.', 'g', 'l', 'b']

/-- The default filename `model.glb`. -/
def modelGlb : List Char :=
  ['m', 'o', 'd', 'e', 'l', '.', 'g', 'l', 'b']

/-- The direct-file test of strategy 1:
`s.lower().split("?")[0].endswith(".glb")`. -/
def directGlb (s : String) : Bool :=
  listEndsWith glbExt ((s.data.map asciiLower).takeWhile (fun c => c ≠ '?'))

/-- The naming logic of `_guess_filename_from_url` applied to the
basename of the parsed path: `name = os.path.basename(path) or
"model.glb"`, then `.glb` is appended only when the name neither ends in
`.glb` (case-insensitively) nor contains a dot. -/
def guessCore (name0 : List Char) : List Char :=
  let name1 := if name0.isEmpty then modelGlb else name0
  if !listEndsWith glbExt (name1.map asciiLower) then
    if !hasChar '.' name1 then name1 ++ glbExt else name1
  else name1

/-- `_guess_filename_from_url(url)`. -/
def _guess_filename_from_url (url : String) : String :=
  ⟨guessCore (pyBasename (pyUrlparse url.data []).path)⟩

/-- `v2-` (case-insensitive). -/
def pV2Dash : List Char := ['v', '2', '-']

/-- Take exactly `n` hex characters. -/
def takeHexN : Nat → List Char → Option (List Char × List Char)
  | 0, l => some ([], l)
  | _ + 1, [] => none
  | n + 1, c :: cs =>
    if isHexChar c then (takeHexN n cs).map (fun p => (c :: p.1, p.2)) else none

/-- A `-` followed by exactly `n` hex characters. -/
def dashHex (n : Nat) (l : List Char) : Option (List Char × List Char) :=
  match l with
  | '-' :: cs => (takeHexN n cs).map (fun p => ('-' :: p.1, p.2))
  | _ => none

/-- Try the identifier pattern
`v2-[0-9a-f]{8}(?:-[0-9a-f]{4}){3}-[0-9a-f]{12}` (IGNORECASE) here. -/
def matchModelIdAt (l : List Char) : Option (List Char) :=
  if listStartsWithIcase pV2Dash l then
    match takeHexN 8 (l.drop 3) with
    | none => none
    | some (h8, r1) =>
      match dashHex 4 r1 with
      | none => none
      | some (g1, r2) =>
        match dashHex 4 r2 with
        | none => none
        | some (g2, r3) =>
          match dashHex 4 r3 with
          | none => none
          | some (g3, r4) =>
            match dashHex 12 r4 with
            | none => none
            | some (g4, _) => some (l.take 3 ++ h8 ++ g1 ++ g2 ++ g3 ++ g4)
  else none

/-- Leftmost scan of `re.search` for the identifier pattern. -/
def extractAux : List Char → Option (List Char)
  | [] => none
  | c :: cs =>
    match matchModelIdAt (c :: cs) with
    | some m => some m
    | none => extractAux cs

/-- `_extract_model_id(text)`. -/
def _extract_model_id (s : String) : Option String :=
  (extractAux s.data).map (fun l => ⟨l⟩)

/-- `scan_page_for_glb` after the page has been fetched (src/main.py
lines 120-154): absolute candidates first, then root-relative paths
joined with `urljoin(r.url, ...)`, then non-absolute `href=`/`src=`
attribute values joined the same way; every candidate is passed through
the normalizer. -/
def scanPageForGlb (finalUrl html : String) : Option String :=
  match findFirstAbs html.data with
  | some c => some (_normalize_found_url ⟨c⟩)
  | none =>
    match findFirstRootRel html.data with
    | some p => some (_normalize_found_url (pyUrljoin finalUrl ⟨p⟩))
    | none =>
      match findFirstAttrRel html.data with
      | some v => some (_normalize_found_url (pyUrljoin finalUrl ⟨v⟩))
      | none => none

/-- The hard-coded model-page template of strategy 3. -/
def meshyPageUrl (mid : String) : String :=
  "https://www.meshy.ai/3d-models/" ++ mid

/-- The guidance message of the final `ValueError`. -/
def guidanceMessage : String :=
  "couldn’t find a direct .glb download link from what you pasted.\ntip – in meshy, use the download/export option and copy the direct .glb link if available."

/-- Strategy 3 (and the final failure) of `resolve_to_glb_url`.
`trace` accumulates the page URLs fetched so far. -/
def resolveStrat3 (fetch : String → FetchOutcome) (s : String) (trace : List String) :
    Except ResolveError Resolved × List String :=
  match _extract_model_id s with
  | some mid =>
    (match fetch (meshyPageUrl mid) with
     | .err m => (.error (.fetchError m), trace ++ [meshyPageUrl mid])
     | .ok fu html =>
       match scanPageForGlb fu html with
       | some glb =>
         (.ok ⟨glb, _guess_filename_from_url glb⟩, trace ++ [meshyPageUrl mid])
       | none =>
         (.error (.resolutionError guidanceMessage), trace ++ [meshyPageUrl mid]))
  | none => (.error (.resolutionError guidanceMessage), trace)

/-- `resolve_to_glb_url(user_input)` (src/main.py lines 55-175), with
network I/O supplied by the oracle `fetch`.  Besides the result it
returns the ordered list of URLs fetched, so that "performs no network
I/O" is the statement that this trace is empty. -/
def resolve_to_glb_url (fetch : String → FetchOutcome) (userInput : String) :
    Except ResolveError Resolved × List String :=
  let s := pyStripS userInput
  if _is_url s && directGlb s then
    (.ok ⟨s, _guess_filename_from_url s⟩, [])
  else if _is_url s then
    match fetch s with
    | .err m => (.error (.fetchError m), [s])
    | .ok fu html =>
      match scanPageForGlb fu html with
      | some glb => (.ok ⟨glb, _guess_filename_from_url glb⟩, [s])
      | none => resolveStrat3 fetch s [s]
  else resolveStrat3 fetch s []

/-! ## The Downloader progress loop (src/main.py lines 178-201)

`download_file` streams the response in chunks, skips empty chunks, and
reports progress after every non-empty chunk: `int(got * 100 / total)`
when a positive total length is declared, else the pulse
`min(99, got // 2**20 % 100)`; after the loop it reports `100`.
Chunks are modelled by their sizes.  The declared content length is a
`Nat` (`int(r.headers.get("content-length") or 0)`: `0` when absent).
Python computes `int(got * 100 / total)` with float division; it is
modelled as exact integer floor division, with which it agrees for every
content length below 2^46 bytes (≈ 70 TB, far beyond the program's
domain). -/

/-- The progress value reported after `g` bytes. -/
def pctOf (total g : Nat) : Nat :=
  if 0 < total then g * 100 / total else min 99 (g / 1048576 % 100)

/-- The reports issued inside the chunk loop, starting from `got`
received bytes. -/
def downloadLoop (total : Nat) : Nat → List Nat → List Nat
  | _, [] => []
  | got, c :: cs =>
    if c = 0 then downloadLoop total got cs
    else pctOf total (got + c) :: downloadLoop total (got + c) cs

/-- The byte totals after each non-empty chunk (the claim-side
`receivedBytes` sequence). -/
def receivedTotals : Nat → List Nat → List Nat
  | _, [] => []
  | got, c :: cs =>
    if c = 0 then receivedTotals got cs
    else (got + c) :: receivedTotals (got + c) cs

/-- The full sequence of progress reports of one `download_file` call. -/
def download_file (total : Nat) (chunks : List Nat) : List Nat :=
  downloadLoop total 0 chunks ++ [100]

/-! ## Claim-side definitions

These two definitions follow the SPEC's words (not the source); each is
compared against the corresponding source-derived definition in the
claims below. -/

/-- Modelled from the spec: the direct-file test as the spec states it —
the input is an absolute HTTP(S) URL whose parsed path (the query string
ignored) ends in `.glb`.  Compare `directGlb`, which truncates the whole
URL at the first `?` instead of parsing out the path. -/
def specDirectPathGlb (s : String) : Bool :=
  _is_url s && listEndsWith glbExt ((pyUrlparse s.data []).path.map asciiLower)

/-- Modelled from the spec: the normalizer pipeline exactly as the spec
lists it — stages (1)-(7) with the whitespace trim only at the end.
Compare `_normalize_found_url`, which strips whitespace first. -/
def specNormalizePipeline (raw : String) : String :=
  ⟨pyStrip (htmlUnescape (subUPure false (subUPure true (normReplaceStages raw.data))))⟩

/-- A fetch oracle on which every request fails; used to exhibit that a
code path performs (and then aborts on) a network fetch. -/
def errFetch : String → FetchOutcome := fun _ => .err "network unavailable"

/-! ## Helper lemmas -/

theorem uReplE_ok (whole hex : List Char) : ∃ p, uReplE whole hex = .ok p := by
  unfold uReplE
  cases h : pyChrE (hexVal hex) with
  | ok c => exact ⟨[c], rfl⟩
  | error e => exact ⟨whole, rfl⟩

/-- The unicode-escape substitution never raises: the only fallible
primitive (`chr`) is guarded by `_u_repl`'s own handler. -/
theorem subUAuxE_ok (dbl : Bool) :
    ∀ (fuel : Nat) (l : List Char), ∃ r, subUAuxE dbl fuel l = .ok r := by
  intro fuel
  induction fuel with
  | zero => intro l; exact ⟨l, rfl⟩
  | succ f ih =>
    intro l
    match l with
    | [] => exact ⟨[], rfl⟩
    | c :: cs =>
      cases hm : matchUEscape dbl (c :: cs) with
      | none =>
        obtain ⟨r, hr⟩ := ih cs
        exact ⟨c :: r, by simp [subUAuxE, hm, hr]⟩
      | some trip =>
        obtain ⟨hex, whole, rest⟩ := trip
        obtain ⟨p, hp⟩ := uReplE_ok whole hex
        obtain ⟨r, hr⟩ := ih rest
        exact ⟨p ++ r, by simp [subUAuxE, hm, hp, hr]⟩

/-- The whole normalizer body never raises. -/
theorem normBodyE_ok (raw : List Char) : ∃ r, normBodyE raw = .ok r := by
  unfold normBodyE
  obtain ⟨r1, h1⟩ := subUAuxE_ok true (normReplaceStages (pyStrip raw)).length
    (normReplaceStages (pyStrip raw))
  rw [h1]
  obtain ⟨r2, h2⟩ := subUAuxE_ok false r1.length r1
  exact ⟨pyStrip (htmlUnescape r2), by simp [h2]⟩

theorem hasChar_append (c : Char) (a b : List Char) :
    hasChar c (a ++ b) = (hasChar c a || hasChar c b) := by
  induction a with
  | nil => simp [hasChar]
  | cons x xs ih => simp [hasChar, ih, Bool.or_assoc]

theorem hasChar_reverse (c : Char) (l : List Char) :
    hasChar c l.reverse = hasChar c l := by
  induction l with
  | nil => rfl
  | cons x xs ih =>
    simp [hasChar, List.reverse_cons, hasChar_append, ih, Bool.or_comm]

theorem hasChar_ltrim (c : Char) (l : List Char) (h : hasChar c l = false) :
    hasChar c (ltrim l) = false := by
  induction l with
  | nil => exact h
  | cons x xs ih =>
    simp only [hasChar, Bool.or_eq_false_iff] at h
    rw [ltrim, List.dropWhile_cons]
    by_cases hs : pyIsSpace x = true
    · simp only [hs, if_true]
      exact ih h.2
    · simp only [hs, if_false]
      simp only [hasChar, Bool.or_eq_false_iff]
      exact ⟨h.1, h.2⟩

theorem hasChar_rtrim (c : Char) (l : List Char) (h : hasChar c l = false) :
    hasChar c (rtrim l) = false := by
  induction l with
  | nil => exact h
  | cons x xs ih =>
    simp only [hasChar, Bool.or_eq_false_iff] at h
    rw [rtrim]
    cases hr : rtrim xs with
    | nil =>
      by_cases hs : pyIsSpace x = true
      · simp [hs, hasChar]
      · simp [hs, hasChar, h.1]
    | cons r rs =>
      have := ih h.2
      rw [hr] at this
      simp only [hasChar, Bool.or_eq_false_iff] at this ⊢
      exact ⟨h.1, this⟩

theorem hasChar_pyStrip (c : Char) (l : List Char) (h : hasChar c l = false) :
    hasChar c (pyStrip l) = false :=
  hasChar_rtrim c (ltrim l) (hasChar_ltrim c l h)

/-- `ltrim` yields the empty list or a list headed by a non-space. -/
theorem ltrim_shape (l : List Char) :
    ltrim l = [] ∨ ∃ c cs, ltrim l = c :: cs ∧ pyIsSpace c = false := by
  induction l with
  | nil => exact Or.inl rfl
  | cons x xs ih =>
    rw [ltrim, List.dropWhile_cons]
    by_cases hs : pyIsSpace x = true
    · simp only [hs, if_true]
      exact ih
    · simp only [hs, if_false]
      exact Or.inr ⟨x, xs, rfl, by simpa using hs⟩

/-- `rtrim` of a cons is empty or keeps the head. -/
theorem rtrim_head (c : Char) (cs : List Char) :
    rtrim (c :: cs) = [] ∨ ∃ r, rtrim (c :: cs) = c :: r := by
  rw [rtrim]
  cases rtrim cs with
  | nil =>
    by_cases hs : pyIsSpace c = true
    · simp [hs]
    · simp [hs]
  | cons r rs => exact Or.inr ⟨r :: rs, rfl⟩

theorem rtrim_idem (l : List Char) : rtrim (rtrim l) = rtrim l := by
  induction l with
  | nil => rfl
  | cons c cs ih =>
    rw [rtrim]
    cases hr : rtrim cs with
    | nil =>
      by_cases hs : pyIsSpace c = true
      · simp [hs, rtrim]
      · simp [hs, rtrim]
    | cons r rs =>
      rw [hr] at ih
      rw [rtrim, ih]

theorem pyStrip_idem (l : List Char) : pyStrip (pyStrip l) = pyStrip l := by
  unfold pyStrip
  rcases ltrim_shape l with hy | ⟨c, cs, heq, hns⟩
  · rw [hy]
    rfl
  · rw [heq]
    rcases rtrim_head c cs with hz | ⟨r, hz⟩
    · rw [hz]
      rfl
    · rw [hz]
      have hlt : ltrim (c :: r) = c :: r := by
        rw [ltrim, List.dropWhile_cons]
        simp [hns]
      rw [hlt]
      have := rtrim_idem (c :: cs)
      rw [hz] at this
      exact this

/-- A string without backslashes never ends in one. -/
theorem stripTrailBS_id (l : List Char) (h : hasChar '\\' l = false) :
    stripTrailBS l = l := by
  have hrev : hasChar '\\' l.reverse = false := by rw [hasChar_reverse]; exact h
  have hend : listEndsWith patBS l = false := by
    rw [listEndsWith]
    cases hx : l.reverse with
    | nil => rfl
    | cons x xs =>
      rw [hx] at hrev
      rw [hasChar, Bool.or_eq_false_iff] at hrev
      have hne : ('\\' == x) = false := by
        rcases hrev with ⟨h1, _⟩
        simp only [beq_eq_false_iff_ne] at h1 ⊢
        exact fun hc => h1 hc.symm
      show listStartsWith patBS.reverse (x :: xs) = false
      simp [patBS, listStartsWith, hne]
  rw [stripTrailBS, hend]
  simp

/-- `str.replace` with a pattern headed by a character absent from the
input is the identity. -/
theorem replaceAux_id (p0 : Char) (pt rep : List Char) :
    ∀ (fuel : Nat) (l : List Char), hasChar p0 l = false →
      replaceAux (p0 :: pt) rep fuel l = l := by
  intro fuel
  induction fuel with
  | zero => intro l _; rfl
  | succ f ih =>
    intro l h
    match l with
    | [] => rfl
    | c :: cs =>
      rw [hasChar, Bool.or_eq_false_iff] at h
      have hne : (p0 == c) = false := by
        rcases h with ⟨h1, _⟩
        simp only [beq_eq_false_iff_ne] at h1 ⊢
        exact fun hc => h1 hc.symm
      have hcond : listStartsWith (p0 :: pt) (c :: cs) = false := by
        simp [listStartsWith, hne]
      rw [replaceAux, hcond]
      simp [ih cs h.2]

/-- The unicode-escape substitution on a backslash-free string is the
identity. -/
theorem subUAuxE_id (dbl : Bool) :
    ∀ (fuel : Nat) (l : List Char), hasChar '\\' l = false →
      subUAuxE dbl fuel l = .ok l := by
  intro fuel
  induction fuel with
  | zero => intro l _; rfl
  | succ f ih =>
    intro l h
    match l with
    | [] => rfl
    | c :: cs =>
      rw [hasChar, Bool.or_eq_false_iff] at h
      have hne : ('\\' == c) = false := by
        rcases h with ⟨h1, _⟩
        simp only [beq_eq_false_iff_ne] at h1 ⊢
        exact fun hc => h1 hc.symm
      have hm : matchUEscape dbl (c :: cs) = none := by
        unfold matchUEscape
        cases dbl <;> simp [listStartsWith, hne]
      rw [subUAuxE, hm, ih cs h.2]

/-- On inputs without backslashes and ampersands the whole normalizer
body is just `str.strip`. -/
theorem normBodyE_no_specials (l : List Char)
    (hb : hasChar '\\' l = false) (ha : hasChar '&' l = false) :
    normBodyE l = .ok (pyStrip l) := by
  have hb' : hasChar '\\' (pyStrip l) = false := hasChar_pyStrip _ _ hb
  have ha' : hasChar '&' (pyStrip l) = false := hasChar_pyStrip _ _ ha
  have hstages : normReplaceStages (pyStrip l) = pyStrip l := by
    unfold normReplaceStages pyReplace
    rw [stripTrailBS_id _ hb']
    simp only [patEscSlash, patEscQuote, patBS2, patBS]
    rw [replaceAux_id '\\' ['/'] ['/'] _ _ hb']
    rw [replaceAux_id '\\' [dq] [dq] _ _ hb']
    rw [replaceAux_id '\\' ['\\'] ['\\'] _ _ hb']
  unfold normBodyE
  rw [hstages, subUAuxE_id true _ _ hb']
  have hsub2 : subUAuxE false (pyStrip l).length (pyStrip l) = .ok (pyStrip l) :=
    subUAuxE_id false _ _ hb'
  simp only [hsub2]
  rw [htmlUnescape, ha']
  simp [pyStrip_idem]

/-! ## Download-loop lemmas -/

theorem downloadLoop_eq_map (total : Nat) :
    ∀ (cs : List Nat) (got : Nat),
      downloadLoop total got cs = (receivedTotals got cs).map (pctOf total) := by
  intro cs
  induction cs with
  | nil => intro got; rfl
  | cons c cs ih =>
    intro got
    by_cases hc : c = 0
    · simp [downloadLoop, receivedTotals, hc, ih]
    · simp [downloadLoop, receivedTotals, hc, ih]

theorem receivedTotals_ge :
    ∀ (cs : List Nat) (got x : Nat), x ∈ receivedTotals got cs → got ≤ x := by
  intro cs
  induction cs with
  | nil => intro got x hx; simp [receivedTotals] at hx
  | cons c cs ih =>
    intro got x hx
    by_cases hc : c = 0
    · rw [receivedTotals, if_pos hc] at hx
      exact ih got x hx
    · rw [receivedTotals, if_neg hc] at hx
      rcases List.mem_cons.mp hx with h | h
      · omega
      · have := ih (got + c) x h
        omega

theorem receivedTotals_le :
    ∀ (cs : List Nat) (got x : Nat), x ∈ receivedTotals got cs → x ≤ got + cs.sum := by
  intro cs
  induction cs with
  | nil => intro got x hx; simp [receivedTotals] at hx
  | cons c cs ih =>
    intro got x hx
    by_cases hc : c = 0
    · rw [receivedTotals, if_pos hc] at hx
      have := ih got x hx
      simp [List.sum_cons, hc]
      omega
    · rw [receivedTotals, if_neg hc] at hx
      rcases List.mem_cons.mp hx with h | h
      · simp [List.sum_cons]
        omega
      · have := ih (got + c) x h
        simp [List.sum_cons]
        omega

theorem receivedTotals_chain :
    ∀ (cs : List Nat) (got : Nat),
      List.Chain' (· ≤ ·) (receivedTotals got cs) := by
  intro cs
  induction cs with
  | nil => intro got; simp [receivedTotals]
  | cons c cs ih =>
    intro got
    by_cases hc : c = 0
    · rw [receivedTotals, if_pos hc]
      exact ih got
    · rw [receivedTotals, if_neg hc]
      refine List.chain'_cons'.mpr ⟨?_, ih (got + c)⟩
      intro y hy
      exact receivedTotals_ge cs (got + c) y (List.mem_of_mem_head? hy)

theorem mem_of_getLastQ : ∀ (l : List Nat) (a : Nat), l.getLast? = some a → a ∈ l := by
  intro l
  induction l with
  | nil => intro a h; simp at h
  | cons x xs ih =>
    intro a h
    cases xs with
    | nil =>
      simp [List.getLast?] at h
      simp [h]
    | cons y ys =>
      rw [List.getLast?_cons_cons] at h
      exact List.mem_cons_of_mem x (ih a h)

theorem getLastQ_concat : ∀ (l : List Nat) (a : Nat), (l ++ [a]).getLast? = some a := by
  intro l a
  rw [List.getLast?_append_cons]
  rfl

/-- Flattened case form of the filename logic. -/
theorem guessCore_cases (n : List Char) :
    guessCore n =
      (if n.isEmpty then modelGlb
       else if listEndsWith glbExt (n.map asciiLower) then n
       else if hasChar '.' n then n
       else n ++ glbExt) := by
  unfold guessCore
  by_cases h0 : n.isEmpty
  · simp only [h0, if_true]
    decide
  · simp only [h0, if_false, Bool.false_eq_true]
    by_cases h1 : listEndsWith glbExt (n.map asciiLower)
    · simp [h1]
    · simp only [h1, Bool.not_false, if_true, Bool.false_eq_true, if_false]
      by_cases h2 : hasChar '.' n
      · simp [h2]
      · simp [h2]

/-- The suggested filename is never the empty string. -/
theorem guessCore_ne_nil (n : List Char) : guessCore n ≠ [] := by
  rw [guessCore_cases]
  by_cases h0 : n.isEmpty
  · simp only [h0, if_true]
    decide
  · have hn : n ≠ [] := by
      intro hc
      rw [hc] at h0
      exact h0 rfl
    by_cases h1 : listEndsWith glbExt (n.map asciiLower)
    · simp [h0, h1, hn]
    · by_cases h2 : hasChar '.' n
      · simp [h0, h1, h2, hn]
      · simp only [h0, h1, h2, if_false, Bool.false_eq_true]
        intro hc
        exact absurd (List.append_eq_nil.mp hc).1 hn

/-! ## The claims -/

/-- C5, counterexample.  The claim says the cleanup stages are applied
in exactly the listed order, with the whitespace trim only as the final
stage (7).  The source trims whitespace FIRST (line 86: `s = raw.strip()`)
and again at the end; on the input `" a\ "` (space, `a`, backslash,
space) the source first strips to `"a\"` and then drops the trailing
backslash, producing `"a"`, while the spec's stage order leaves the
trailing backslash (the raw input ends in a space) and yields `"a\"`. -/
theorem c5_counterexample :
    specNormalizePipeline " a\\ " ≠ _normalize_found_url " a\\ " := by
  decide

/-- C5, amended: `_normalize_found_url` first trims surrounding
whitespace, then applies stages (1)-(6) in exactly the specified order —
(1) strip one trailing unescaped backslash, (2) unescape `\/` and `\"`,
(3) collapse doubled backslashes, (4) decode `\\uXXXX`, (5) decode
`\uXXXX`, (6) decode HTML entities — and (7) trims again; and on the
literal input `https:\/\/a.b\/x.glb` it yields `https://a.b/x.glb`. -/
theorem c5_amended :
    (∀ raw : String, _normalize_found_url raw = specNormalizePipeline (pyStripS raw)) ∧
    _normalize_found_url "https:\\/\\/a.b\\/x.glb" = "https://a.b/x.glb" := by
  constructor
  · intro raw
    obtain ⟨r1, h1⟩ := subUAuxE_ok true (normReplaceStages (pyStrip raw.data)).length
      (normReplaceStages (pyStrip raw.data))
    obtain ⟨r2, h2⟩ := subUAuxE_ok false r1.length r1
    have hp1 : subUPure true (normReplaceStages (pyStrip raw.data)) = r1 := by
      simp [subUPure, h1]
    have hp2 : subUPure false r1 = r2 := by
      simp [subUPure, h2]
    simp [_normalize_found_url, normBodyE, specNormalizePipeline, pyStripS, h1, h2, hp1, hp2]
  · decide

/-- C6: the normalizer is total — its body never raises (the only
fallible primitive, `chr`, is guarded and in fact never fails on
4-hex-digit escapes), so the outer `except` fallback that would return
the input unchanged is never taken, and for every input string
(malformed escape sequences included) `_normalize_found_url` returns
the body's value. -/
theorem c6 (raw : String) :
    normBodyE raw.data = Except.ok (_normalize_found_url raw).data := by
  obtain ⟨r, hr⟩ := normBodyE_ok raw.data
  simp [_normalize_found_url, hr]

/-- C7, counterexample.  `_normalize_found_url` is NOT idempotent on
every string: on the input `\\/` (two backslashes and a slash) one
application gives `\/` (the `\/`-unescape fires on the second
backslash), and a second application gives `/`. -/
theorem c7_counterexample :
    _normalize_found_url (_normalize_found_url "\\\\/") ≠ _normalize_found_url "\\\\/" := by
  decide

/-- C7, amended: `_normalize_found_url` is idempotent on every string
containing no backslash and no ampersand — in particular on every
already-clean URL (on such strings it is exactly `str.strip`).  The
backslash exclusion is forced by the counterexample `\\/`; the ampersand
exclusion by `&#92;`, which one application turns into a lone backslash
that a second application then strips. -/
theorem c7_amended (x : String) (hb : hasChar '\\' x.data = false)
    (ha : hasChar '&' x.data = false) :
    _normalize_found_url (_normalize_found_url x) = _normalize_found_url x := by
  have h1 : normBodyE x.data = .ok (pyStrip x.data) := normBodyE_no_specials _ hb ha
  have hx : _normalize_found_url x = ⟨pyStrip x.data⟩ := by
    simp [_normalize_found_url, h1]
  have hb2 : hasChar '\\' (pyStrip x.data) = false := hasChar_pyStrip _ _ hb
  have ha2 : hasChar '&' (pyStrip x.data) = false := hasChar_pyStrip _ _ ha
  have h2 : normBodyE (pyStrip x.data) = .ok (pyStrip (pyStrip x.data)) :=
    normBodyE_no_specials _ hb2 ha2
  rw [hx]
  simp [_normalize_found_url, h2, pyStrip_idem]

/-- Witness for c7_amended at the concrete clean URL
`" https://a.b/m.glb "`. -/
theorem c7_witness :
    hasChar '\\' (" https://a.b/m.glb " : String).data = false ∧
    hasChar '&' (" https://a.b/m.glb " : String).data = false ∧
    _normalize_found_url (_normalize_found_url " https://a.b/m.glb ") =
      _normalize_found_url " https://a.b/m.glb " :=
  ⟨by decide, by decide, c7_amended " https://a.b/m.glb " (by decide) (by decide)⟩

/-- C8: when the response declares a positive total length and delivers
exactly that many bytes, every per-chunk progress report equals
`floor(receivedBytes * 100 / totalLength)`, the report sequence is
non-decreasing, and the final report is exactly 100. -/
theorem c8 (total : Nat) (chunks : List Nat) (hpos : 0 < total)
    (hsum : chunks.sum = total) :
    download_file total chunks =
      (receivedTotals 0 chunks).map (fun g => g * 100 / total) ++ [100] ∧
    List.Chain' (· ≤ ·) (download_file total chunks) ∧
    (download_file total chunks).getLast? = some 100 := by
  have hmap : download_file total chunks =
      (receivedTotals 0 chunks).map (fun g => g * 100 / total) ++ [100] := by
    rw [download_file, downloadLoop_eq_map]
    congr 1
    apply List.map_congr_left
    intro a _
    simp [pctOf, hpos]
  refine ⟨hmap, ?_, ?_⟩
  · rw [hmap]
    refine List.chain'_append.mpr ⟨?_, ?_, ?_⟩
    · exact (List.chain'_map _).mpr
        ((receivedTotals_chain chunks 0).imp
          (fun a b hab => Nat.div_le_div_right (Nat.mul_le_mul_right 100 hab)))
    · simp
    · intro x hx y hy
      simp only [List.head?_cons, Option.mem_def, Option.some.injEq] at hy
      rw [Option.mem_def] at hx
      have hx' := mem_of_getLastQ _ _ hx
      obtain ⟨g, hg, rfl⟩ := List.mem_map.mp hx'
      have hle : g ≤ total := by
        have := receivedTotals_le chunks 0 g hg
        rwa [Nat.zero_add, hsum] at this
      have : g * 100 / total ≤ 100 := by
        calc g * 100 / total ≤ total * 100 / total :=
              Nat.div_le_div_right (Nat.mul_le_mul_right 100 hle)
          _ = 100 := Nat.mul_div_cancel_left 100 hpos
      omega
  · rw [download_file]
    exact getLastQ_concat _ _

/-- Witness for c8: 1000 declared bytes delivered as chunks of 300, 0
(skipped) and 700. -/
theorem c8_witness :
    download_file 1000 [300, 0, 700] =
      (receivedTotals 0 [300, 0, 700]).map (fun g => g * 100 / 1000) ++ [100] ∧
    List.Chain' (· ≤ ·) (download_file 1000 [300, 0, 700]) ∧
    (download_file 1000 [300, 0, 700]).getLast? = some 100 :=
  c8 1000 [300, 0, 700] (by decide) (by decide)

/-- C9: with no declared content length (`total = 0`), every progress
value reported while chunks are still arriving is at most 99 (and, being
a `Nat`, at least 0), and the last value reported is exactly 100. -/
theorem c9 (chunks : List Nat) :
    (∀ x ∈ (download_file 0 chunks).dropLast, x ≤ 99) ∧
    (download_file 0 chunks).getLast? = some 100 := by
  constructor
  · intro x hx
    rw [download_file, List.dropLast_concat, downloadLoop_eq_map] at hx
    obtain ⟨g, _, rfl⟩ := List.mem_map.mp hx
    simp only [pctOf, Nat.lt_irrefl, if_false]
    exact Nat.min_le_left _ _
  · rw [download_file]
    exact getLastQ_concat _ _

/-- Witness for c9: a single 2 MiB chunk pulses the bar to 2, and the
post-loop report is 100. -/
theorem c9_witness :
    (2 : Nat) ≤ 99 ∧ (download_file 0 [2097152]).getLast? = some 100 :=
  ⟨(c9 [2097152]).1 2 (by decide), (c9 [2097152]).2⟩

/-- C1: the page-scrape step selects its candidate in strict priority
order — the first absolute `.glb` match anywhere in the text (normalized,
all relative candidates ignored); otherwise the first root-relative
`/...glb` match, joined with `urljoin` against the final post-redirect
page URL and normalized; otherwise the first non-absolute `href=`/`src=`
attribute value ending in `.glb`, joined and normalized the same way;
otherwise no candidate. -/
theorem c1 (finalUrl html : String) :
    (∀ c, findFirstAbs html.data = some c →
      scanPageForGlb finalUrl html = some (_normalize_found_url ⟨c⟩)) ∧
    (findFirstAbs html.data = none →
      ∀ p, findFirstRootRel html.data = some p →
        scanPageForGlb finalUrl html =
          some (_normalize_found_url (pyUrljoin finalUrl ⟨p⟩))) ∧
    (findFirstAbs html.data = none → findFirstRootRel html.data = none →
      ∀ v, findFirstAttrRel html.data = some v →
        scanPageForGlb finalUrl html =
          some (_normalize_found_url (pyUrljoin finalUrl ⟨v⟩))) ∧
    (findFirstAbs html.data = none → findFirstRootRel html.data = none →
      findFirstAttrRel html.data = none → scanPageForGlb finalUrl html = none) := by
  refine ⟨fun c hc => ?_, fun h1 p hp => ?_, fun h1 h2 v hv => ?_, fun h1 h2 h3 => ?_⟩
  · simp [scanPageForGlb, hc]
  · simp [scanPageForGlb, h1, hp]
  · simp [scanPageForGlb, h1, h2, hv]
  · simp [scanPageForGlb, h1, h2, h3]

/-- Witness for c1: the spec's own test page — HTML containing
`href="/assets/m.glb"` and no absolute `.glb` link — resolves the
root-relative path against the final page URL. -/
theorem c1_witness :
    findFirstAbs ("<a href=\"/assets/m.glb\">see</a>" : String).data = none ∧
    findFirstRootRel ("<a href=\"/assets/m.glb\">see</a>" : String).data =
      some ("/assets/m.glb" : String).data ∧
    scanPageForGlb "https://ex.org/p/q" "<a href=\"/assets/m.glb\">see</a>" =
      some "https://ex.org/assets/m.glb" := by
  refine ⟨by decide, by decide, ?_⟩
  have h := (c1 "https://ex.org/p/q" "<a href=\"/assets/m.glb\">see</a>").2.1
    (by decide) ("/assets/m.glb" : String).data (by decide)
  rw [h]
  decide

/-- C2, counterexample.  The claim quantifies over inputs whose PARSED
PATH (query ignored) ends in `.glb`, but the source instead truncates
the raw input at the first `?` and tests that prefix
(`s.lower().split("?")[0].endswith(".glb")`).  The two disagree on URLs
with a fragment: `https://a.b/x.glb#f` has path `/x.glb`, yet the
source does not accept it directly — it starts a page fetch (the fetch
trace is non-empty), contrary to "immediately, without performing any
network fetch". -/
theorem c2_counterexample :
    _is_url "https://a.b/x.glb#f" = true ∧
    specDirectPathGlb "https://a.b/x.glb#f" = true ∧
    pyStripS "https://a.b/x.glb#f" = "https://a.b/x.glb#f" ∧
    (resolve_to_glb_url errFetch "https://a.b/x.glb#f").2 = ["https://a.b/x.glb#f"] := by
  exact ⟨by decide, by decide, by decide, by decide⟩

/-- C2, amended: for every input whose trimmed form is an absolute
HTTP(S) URL and which, truncated at the first `?`, ends
case-insensitively in `.glb` (the source's direct-file test — note a
fragment counts as part of the tested prefix, unlike the parsed path),
`resolve_to_glb_url` returns the trimmed input itself as the file URL
with no network fetch, for every fetch oracle. -/
theorem c2_amended (fetch : String → FetchOutcome) (input : String)
    (h1 : _is_url (pyStripS input) = true) (h2 : directGlb (pyStripS input) = true) :
    resolve_to_glb_url fetch input =
      (.ok ⟨pyStripS input, _guess_filename_from_url (pyStripS input)⟩, []) := by
  simp [resolve_to_glb_url, h1, h2]

/-- Witness for c2_amended at `"  https://a.b/m.glb  "` (whitespace
trimmed, returned unchanged, empty fetch trace). -/
theorem c2_witness :
    _is_url (pyStripS "  https://a.b/m.glb  ") = true ∧
    directGlb (pyStripS "  https://a.b/m.glb  ") = true ∧
    resolve_to_glb_url errFetch "  https://a.b/m.glb  " =
      (.ok ⟨"https://a.b/m.glb", "m.glb"⟩, []) := by
  refine ⟨by decide, by decide, ?_⟩
  have h := c2_amended errFetch "  https://a.b/m.glb  " (by decide) (by decide)
  rw [h]
  rfl

/-- C3: whenever a page fetch is started (strategy 2, strategy 3 after a
fruitless strategy-2 scan, or strategy 3 directly) and that fetch fails,
the fetch's own error terminates the whole resolution; no later strategy
is attempted — in particular a failing strategy-2 fetch never reaches
the derived-page fetch, whatever identifier the input contains (the
fetch trace stops at the failed URL). -/
theorem c3 (fetch : String → FetchOutcome) (input : String) :
    (∀ e, _is_url (pyStripS input) = true → directGlb (pyStripS input) = false →
      fetch (pyStripS input) = .err e →
      resolve_to_glb_url fetch input = (.error (.fetchError e), [pyStripS input])) ∧
    (∀ fu html mid e, _is_url (pyStripS input) = true →
      directGlb (pyStripS input) = false →
      fetch (pyStripS input) = .ok fu html → scanPageForGlb fu html = none →
      _extract_model_id (pyStripS input) = some mid →
      fetch (meshyPageUrl mid) = .err e →
      resolve_to_glb_url fetch input =
        (.error (.fetchError e), [pyStripS input, meshyPageUrl mid])) ∧
    (∀ mid e, _is_url (pyStripS input) = false →
      _extract_model_id (pyStripS input) = some mid →
      fetch (meshyPageUrl mid) = .err e →
      resolve_to_glb_url fetch input = (.error (.fetchError e), [meshyPageUrl mid])) := by
  refine ⟨fun e h1 h2 h3 => ?_, fun fu html mid e h1 h2 h3 h4 h5 h6 => ?_,
    fun mid e h1 h2 h3 => ?_⟩
  · simp [resolve_to_glb_url, h1, h2, h3]
  · simp [resolve_to_glb_url, resolveStrat3, h1, h2, h3, h4, h5, h6]
  · simp [resolve_to_glb_url, resolveStrat3, h1, h2, h3]

/-- Witness for c3: a page URL (not a direct `.glb` link) whose fetch
fails propagates the fetch error after exactly one fetch. -/
theorem c3_witness :
    _is_url (pyStripS "https://a.b/page") = true ∧
    directGlb (pyStripS "https://a.b/page") = false ∧
    resolve_to_glb_url errFetch "https://a.b/page" =
      (.error (.fetchError "network unavailable"), [pyStripS "https://a.b/page"]) :=
  ⟨by decide, by decide,
    (c3 errFetch "https://a.b/page").1 "network unavailable" (by decide) (by decide) rfl⟩

/-- C4: an input that is neither an absolute HTTP(S) URL nor contains a
versioned-identifier match makes `resolve_to_glb_url` fail with the
guidance-carrying resolution error and an empty fetch trace (no network
I/O), for every fetch oracle. -/
theorem c4 (fetch : String → FetchOutcome) (input : String)
    (h1 : _is_url (pyStripS input) = false)
    (h2 : _extract_model_id (pyStripS input) = none) :
    resolve_to_glb_url fetch input =
      (.error (.resolutionError guidanceMessage), []) := by
  simp [resolve_to_glb_url, resolveStrat3, h1, h2]

/-- Witness for c4 at the input `"hello world"`. -/
theorem c4_witness :
    _is_url (pyStripS "hello world") = false ∧
    _extract_model_id (pyStripS "hello world") = none ∧
    resolve_to_glb_url errFetch "hello world" =
      (.error (.resolutionError guidanceMessage), []) :=
  ⟨by decide, by decide, c4 errFetch "hello world" (by decide) (by decide)⟩

/-- C10, counterexample.  The claim says the suggested filename always
ends in `.glb`, with `.glb` appended whenever the last path segment does
not already end in it.  The source only appends `.glb` when the segment
contains NO dot (`# keep extension if there is one`).  The direct-match
input `https://a.b/y.png#x.glb` (accepted by strategy 1 because the
pre-`?` prefix ends in `.glb`) has path basename `y.png`, and the
resolver returns the filename `y.png` — not `y.png.glb`, and not ending
in `.glb`. -/
theorem c10_counterexample :
    resolve_to_glb_url errFetch "https://a.b/y.png#x.glb" =
      (.ok ⟨"https://a.b/y.png#x.glb", "y.png"⟩, []) ∧
    listEndsWith glbExt ("y.png" : String).data = false ∧
    ("y.png" : String) ≠ "y.png.glb" := by
  exact ⟨rfl, by decide, by decide⟩

/-- C10, amended: the suggested filename is non-empty and equals — the
last path segment when that segment already ends in `.glb`
(case-insensitively) OR contains a dot (in which case it may not end in
`.glb`); the last path segment with `.glb` appended when it has no dot;
and the default `model.glb` when the path has no final segment. -/
theorem c10_amended (url : String) :
    _guess_filename_from_url url ≠ "" ∧
    _guess_filename_from_url url =
      ⟨if (pyBasename (pyUrlparse url.data []).path).isEmpty then modelGlb
        else if listEndsWith glbExt
            ((pyBasename (pyUrlparse url.data []).path).map asciiLower) then
          pyBasename (pyUrlparse url.data []).path
        else if hasChar '.' (pyBasename (pyUrlparse url.data []).path) then
          pyBasename (pyUrlparse url.data []).path
        else pyBasename (pyUrlparse url.data []).path ++ glbExt⟩ := by
  constructor
  · intro hc
    have hdata := congrArg String.data hc
    exact guessCore_ne_nil (pyBasename (pyUrlparse url.data []).path) hdata
  · show (⟨guessCore (pyBasename (pyUrlparse url.data []).path)⟩ : String) = _
    rw [guessCore_cases]

end Figurinify
